import Mathlib

/-!
Verification of the patch manager in `augment_tools_core/patch_manager.py`.

The program is a single-pass text patcher.  We embed it shallowly:

* file contents are `List Char` (Python `str`);
* the filesystem is an association list from path to content, writes shadow;
* OS-level faults (a read raising, a write raising, `shutil.copy2` raising,
  `_ensure_write_permissions` failing) are supplied by an oracle `Env`,
  since they depend on OS state outside the program;
* the messages printed through `print_info` / `print_success` /
  `print_warning` / `print_error` are accumulated in a log (we record the
  message text passed to the helper; `_ensure_write_permissions` logs only
  on permission-bit changes, OS state we do not model, so it contributes
  no log entries here);
* `language_manager` is not part of the source tree, so `get_patch_status`
  is modelled on its `FALLBACK_TEXTS` branch (`LANGUAGE_SUPPORT = False`).
-/

namespace AugmentPatch

set_option maxRecDepth 100000

/-- Python `str` values, as lists of characters. -/
abbrev Str := List Char

/-- Coerce a Lean string literal to `Str`. -/
def str (s : String) : Str := s.data

/-- Python's `\s` class used by the anchor regex.  The pattern is a `str`
pattern without `re.ASCII`, so `\s` matches the full Unicode whitespace set
(CPython's `Py_UNICODE_ISSPACE`): 0x09-0x0D, 0x1C-0x1F, 0x20, 0x85, 0xA0,
0x1680, 0x2000-0x200A, 0x2028, 0x2029, 0x202F, 0x205F and 0x3000. -/
def pySpace (c : Char) : Bool :=
  (0x09 ≤ c.val && c.val ≤ 0x0d) || c.val = 0x20 ||
  (0x1c ≤ c.val && c.val ≤ 0x1f) || c.val = 0x85 || c.val = 0xa0 ||
  c.val = 0x1680 || (0x2000 ≤ c.val && c.val ≤ 0x200a) ||
  c.val = 0x2028 || c.val = 0x2029 || c.val = 0x202f || c.val = 0x205f ||
  c.val = 0x3000

/-- `startsList n h` holds when `n` is a leading segment of `h`
(Python `h.startswith(n)`). -/
def startsList : Str → Str → Bool
  | [], _ => true
  | _ :: _, [] => false
  | a :: as, b :: bs => a = b && startsList as bs

/-- Python's substring test `needle in hay`. -/
def strIn (needle : Str) : Str → Bool
  | [] => needle.isEmpty
  | c :: rest => startsList needle (c :: rest) || strIn needle rest

/-- Consume the literal `lit` from the front of `s`, returning the rest. -/
def dropLit : Str → Str → Option Str
  | [], s => some s
  | _ :: _, [] => none
  | a :: as, b :: bs => if a = b then dropLit as bs else none

/-- Matching the anchor regex `(async\s+callApi\s*\([^)]*\)\s*\x7b)` at the
head of `s` (the pattern of `_find_callapi_function`).  Each greedy class is
followed by a literal outside the class, so greedy matching is exactly
maximal munch and never backtracks; the result is the unmatched remainder. -/
def anchorRest (s : Str) : Option Str := do
  let s1 ← dropLit (str "async") s
  if (s1.takeWhile pySpace).isEmpty then none else do
  let s2 := s1.dropWhile pySpace       -- \s+ : nonempty by the guard above
  let s3 ← dropLit (str "callApi") s2
  let s4 := s3.dropWhile pySpace       -- \s*
  let s5 ← dropLit [ '(' ] s4
  let s6 := s5.dropWhile (fun c => !(c = ')'))   -- [^)]* (newlines included)
  let s7 ← dropLit [ ')' ] s6
  let s8 := s7.dropWhile pySpace       -- \s*
  dropLit [ '\x7b' ] s8

/-- Search the anchor regex from the left (Python `re.search`): returns
`(start, end)` of the leftmost match, `match.start()` and `match.end()`. -/
def searchAux (i : Nat) : Str → Option (Nat × Nat)
  | [] => none   -- the pattern needs at least the literal "async"
  | c :: tail =>
    match anchorRest (c :: tail) with
    | some rest => some (i, i + ((c :: tail).length - rest.length))
    | none => searchAux (i + 1) tail

/-- `PatchManager._find_callapi_function`: `re.search` of the anchor pattern,
exposing `(match.start(), match.end())`. -/
def find_callapi_function (content : Str) : Option (Nat × Nat) :=
  searchAux 0 content

/-- Split a list at the last occurrence of `sep`: the first component keeps
everything up to and including that occurrence, the second is what follows;
`([], s)` when `sep` does not occur. -/
def splitAtLastSep (sep : Char) : Str → Str × Str
  | [] => ([], [])
  | c :: cs =>
    let r := splitAtLastSep sep cs
    if c = sep ∨ r.1 ≠ [] then (c :: r.1, r.2) else ([], c :: cs)

/-- `pathlib.PurePath` stem/suffix of a file name: the suffix starts at the
last dot provided that dot is neither the first nor the last character
(`0 < name.rfind('.') < len(name) - 1`); otherwise the suffix is empty. -/
def stemSuffix (nm : Str) : Str × Str :=
  let r := splitAtLastSep '.' nm
  if r.1.length ≤ 1 ∨ r.2 = [] then (nm, [])
  else (r.1.dropLast, '.' :: r.2)

/-- The backup sibling used by `_create_backup` and `restore_from_backup`:
`file_path_obj.with_name(stem + "_ori" + suffix)`. -/
def backupPath (p : Str) : Str :=
  let dn := splitAtLastSep '/' p
  let ss := stemSuffix dn.2
  dn.1 ++ ss.1 ++ str "_ori" ++ ss.2

/-- The filesystem: paths mapped to contents.  A path exists iff it has a
binding (`os.path.exists`). -/
abbrev FS := List (Str × Str)

/-- Current content of `p`, `none` when the file does not exist. -/
def fsGet : FS → Str → Option Str
  | [], _ => none
  | (q, c) :: rest, p => if p = q then some c else fsGet rest p

/-- Write `c` to `p` (most recent binding shadows). -/
def fsSet (fs : FS) (p c : Str) : FS := (p, c) :: fs

/-- Oracle for the OS-dependent outcomes of the I/O calls the program makes:
which reads/writes/copies raise (and with what message rendered by
`f"...: \x7be\x7d"`), whether `_ensure_write_permissions` succeeds, and what
content a failed `open(..., 'w')`/`write` leaves behind. -/
structure Env where
  readErr : Str → Option Str
  writeErr : Str → Option Str
  copyErr : Str → Str → Option Str
  permOk : Str → Bool
  failContent : Str → Str

/-- Program-visible state: the filesystem plus the printed log. -/
structure St where
  fs : FS
  log : List Str

/-- `PatchMode` enumeration. -/
inductive PatchMode
  | block
  | random
  | empty
  | stealth
  | debug
deriving DecidableEq

/-- `PatchMode.value`, the string payload of each enum member. -/
def PatchMode.value : PatchMode → Str
  | .block => str "block"
  | .random => str "random"
  | .empty => str "empty"
  | .stealth => str "stealth"
  | .debug => str "debug"

/-- `PatchResult`: success flag, message, and the two path fields (which
default to the empty string in the Python constructor). -/
structure PatchResult where
  success : Bool
  message : Str
  file_path : Str
  backup_path : Str
deriving DecidableEq

/-- A failed `PatchResult(False, msg)` with defaulted path fields. -/
def fail (m : Str) : PatchResult := ⟨false, m, [], []⟩

/-- The `self.patches` template table (dict in `PatchManager.__init__`). -/
def patches : PatchMode → Str
  | .block => str "if (typeof s === \"string\" && (s.startsWith(\"report-\") || s.startsWith(\"record-\"))) \x7b return \x7b success: true \x7d; \x7d"
  | .random => str "if (typeof s === \"string\" && (s.startsWith(\"report-\") || s.startsWith(\"record-\"))) \x7b i = \x7b timestamp: Date.now(), version: Math.random().toString(36).substring(2, 8) \x7d; \x7d"
  | .empty => str "if (typeof s === \"string\" && (s.startsWith(\"report-\") || s.startsWith(\"record-\"))) \x7b i = \x7b\x7d; \x7d"
  | .stealth => str "if (typeof s === \"string\" && (s.startsWith(\"report-\") || s.startsWith(\"record-\"))) \x7b i = \x7b timestamp: Date.now(), session: Math.random().toString(36).substring(2, 10), events: [] \x7d; \x7d"
  | .debug => str "if (typeof s === \"string\" && (s.startsWith(\"report-\") || s.startsWith(\"record-\"))) \x7b i = \x7b timestamp: Date.now(), version: Math.random().toString(36).substring(2, 8) \x7d; \x7d if (typeof s === \"string\" && s === \"subscription-info\") \x7b return \x7b success: true, subscription: \x7b Enterprise: \x7b\x7d, ActiveSubscription: \x7b end_date: \"2026-12-31\", usage_balance_depleted: false \x7d \x7d \x7d; \x7d this.maxUploadSizeBytes = 999999999; this.maxTrackableFileCount = 999999; this.completionTimeoutMs = 999999; this.diffBudget = 999999; this.messageBudget = 999999; this.enableDebugFeatures = true;"

/-- `self.patch_signatures`: markers whose presence means "already patched". -/
def patch_signatures : List Str :=
  [str "startsWith(\"report-\")",
   str "startsWith(\"record-\")",
   str "randSessionId",
   str "this._userAgent = \"\""]

/-- `get_patch_description` (total over the five dict keys; the `.get`
fallback "未知模式" is unreachable). -/
def get_patch_description : PatchMode → Str
  | .block => str "完全遥测阻止 - 不发送任何数据"
  | .random => str "随机假数据 - 服务器收到无意义数据"
  | .empty => str "空数据模式 - 发送最小载荷"
  | .stealth => str "隐身模式 - 发送逼真但假的遥测数据"
  | .debug => str "调试模式 - 假订阅 + 无限制 + 增强功能"

/-- `_generate_session_randomizer`: despite the name it returns a fixed
literal string (note the leading space). -/
def generate_session_randomizer : Str :=
  str " const chars = \"0123456789abcdef\"; let randSessionId = \"\"; for (let i = 0; i < 36; i++) \x7b randSessionId += i === 8 || i === 13 || i === 18 || i === 23 ? \"-\" : i === 14 ? \"4\" : i === 19 ? chars[8 + Math.floor(4 * Math.random())] : chars[Math.floor(16 * Math.random())]; \x7d this.sessionId = randSessionId; this._userAgent = \"\";"

/-- `_is_already_patched`: any signature occurs as a substring. -/
def is_already_patched (content : Str) : Bool :=
  patch_signatures.any (fun sig => strIn sig content)

/-- The full snippet `apply_patch` inserts:
`self.patches[patch_mode] + self._generate_session_randomizer()`. -/
def patch_code (m : PatchMode) : Str :=
  patches m ++ generate_session_randomizer

/-- The patched content: the original up to `match.end()`, the snippet, then
the rest (`content[:func_start] + patch_code + content[func_start:]`). -/
def patchedContent (m : PatchMode) (content : Str) (func_start : Nat) : Str :=
  content.take func_start ++ patch_code m ++ content.drop func_start

/-- The tail of `apply_patch` after a successful backup step: build the
snippet, insert it at `func_start = match.end()`, and write the file.  When
the write raises, the file is left with oracle-chosen content and the code
attempts `shutil.copy2(backup_path, file_path)` (its preceding
`_ensure_write_permissions` call has its result ignored by the source), then
reports the write failure. -/
def applyPatchWrite (e : Env) (st : St) (file_path : Str) (patch_mode : PatchMode)
    (content : Str) (func_start : Nat) (bpath : Str) : PatchResult × St :=
  match e.writeErr file_path with
  | none =>
    (⟨true, str "补丁应用成功", file_path, bpath⟩,
     ⟨fsSet st.fs file_path (patchedContent patch_mode content func_start),
      st.log ++
        [str "补丁应用成功: " ++ file_path,
         str "效果: " ++ get_patch_description patch_mode,
         str "隐私保护已启用!"]⟩)
  | some err =>
    let fsFail := fsSet st.fs file_path (e.failContent file_path)
    match fsGet fsFail bpath, e.copyErr bpath file_path with
    | some bc, none =>
      (fail (str "写入补丁文件失败: " ++ err),
       ⟨fsSet fsFail file_path bc, st.log ++ [str "已从备份恢复原始文件"]⟩)
    | _, _ =>
      (fail (str "写入补丁文件失败: " ++ err),
       ⟨fsFail, st.log ++ [str "恢复原始文件失败!"]⟩)

/-- `PatchManager.apply_patch`, with every `print_*` call logged and every
I/O outcome drawn from the oracle.  The rollback's
`_ensure_write_permissions` call has its result ignored by the source, so it
does not branch here. -/
def apply_patch (e : Env) (st : St) (file_path : Str) (patch_mode : PatchMode) :
    PatchResult × St :=
  match fsGet st.fs file_path with
  | none => (fail (str "文件不存在: " ++ file_path), st)
  | some content =>
    let log1 := st.log ++
      [str "开始补丁文件: " ++ file_path,
       str "补丁模式: " ++ patch_mode.value ++ str " - " ++ get_patch_description patch_mode]
    match e.readErr file_path with
    | some err => (fail (str "读取文件失败: " ++ err), ⟨st.fs, log1⟩)
    | none =>
      if is_already_patched content then
        (fail (str "文件已被补丁，跳过操作"), ⟨st.fs, log1⟩)
      else
        match find_callapi_function content with
        | none => (fail (str "未找到async callApi函数"), ⟨st.fs, log1⟩)
        | some se =>
          if e.permOk file_path = false then
            (fail (str "无法获取文件写权限"), ⟨st.fs, log1⟩)
          else
            -- _create_backup: skip the copy when the backup already exists
            let bpath := backupPath file_path
            match fsGet st.fs bpath with
            | some _ =>
              applyPatchWrite e ⟨st.fs, log1 ++ [str "备份文件已存在: " ++ bpath]⟩
                file_path patch_mode content se.2 bpath
            | none =>
              match e.copyErr file_path bpath with
              | some err =>
                (fail (str "创建备份失败"), ⟨st.fs, log1 ++ [str "创建备份失败: " ++ err]⟩)
              | none =>
                applyPatchWrite e
                  ⟨fsSet st.fs bpath content, log1 ++ [str "备份创建成功: " ++ bpath]⟩
                  file_path patch_mode content se.2 bpath

/-- `PatchManager.restore_from_backup`. -/
def restore_from_backup (e : Env) (st : St) (file_path : Str) : PatchResult × St :=
  let bpath := backupPath file_path
  match fsGet st.fs bpath with
  | none => (fail (str "备份文件不存在: " ++ bpath), st)
  | some bc =>
    if e.permOk file_path = false then
      (fail (str "无法获取文件写权限"), st)
    else
      match e.copyErr bpath file_path with
      | some err => (fail (str "恢复失败: " ++ err), st)
      | none =>
        (⟨true, str "恢复成功", file_path, bpath⟩,
         ⟨fsSet st.fs file_path bc, st.log ++ [str "已从备份恢复: " ++ file_path]⟩)

/-- `PatchManager.get_patch_status`, on the `FALLBACK_TEXTS` branch (the
`language_manager` module is not part of the source tree).  It only reads;
its type shows it mutates nothing. -/
def get_patch_status (e : Env) (st : St) (file_path : Str) : Str :=
  match fsGet st.fs file_path with
  | none => str "file not found"
  | some content =>
    match e.readErr file_path with
    | some _ => str "status unknown"
    | none =>
      if is_already_patched content then str "patched" else str "not patched"

/-- A fault-free oracle: no read/write/copy raises and permissions can
always be ensured.  Used by the concrete witnesses. -/
def envOk : Env := ⟨fun _ => none, fun _ => none, fun _ _ => none, fun _ => true, fun _ => []⟩

/-- Concrete witness path. -/
def pW : Str := str "a.js"

/-- Concrete unpatched content containing one anchor occurrence. -/
def cW : Str := str "function f() \x7b\x7d async callApi(x) \x7b return 1; \x7d"

/-- Concrete unpatched content with two anchor occurrences. -/
def cW2 : Str := str "async callApi(x) \x7b async callApi(y) \x7b \x7d \x7d"

/-- Concrete content with no anchor occurrence. -/
def cNoAnchor : Str := str "function f() \x7b return 2; \x7d"

/-- Witness state: the target file alone. -/
def stW : St := ⟨[(pW, cW)], []⟩

/-- Witness state: the target file plus a stale backup `a_ori.js`. -/
def stStale : St := ⟨[(pW, cW), (str "a_ori.js", str "OLD")], []⟩

/-- An oracle whose only fault is that writing the target raises. -/
def envWF : Env :=
  ⟨fun _ => none, fun q => if q = pW then some (str "disk full") else none,
   fun _ _ => none, fun _ => true, fun _ => str "partial"⟩

/-- Concrete content whose first anchor match is not at position 0 and which
contains a second match further right. -/
def cTwo : Str := str "x async callApi(a) \x7b async callApi(b) \x7b \x7d \x7d"

/-- Witness state for the two-match content. -/
def stTwo : St := ⟨[(pW, cTwo)], []⟩

/-- Witness state with anchor-free content. -/
def stNoAnchor : St := ⟨[(pW, cNoAnchor)], []⟩

/-- A second concrete path. -/
def pB : Str := str "b.js"

/-- A different state holding the same content `cW` under `pB`. -/
def stB : St := ⟨[(pB, cW), (str "junk.js", str "zzz")], []⟩

/-! ### Substring lemmas -/

lemma strIn_nil_needle : ∀ s : Str, strIn [] s = true
  | [] => rfl
  | _ :: _ => rfl

lemma startsList_append (n : Str) :
    ∀ h t : Str, startsList n h = true → startsList n (h ++ t) = true := by
  induction n with
  | nil => intro h t _; rfl
  | cons a as ih =>
    intro h t hs
    cases h with
    | nil => simp [startsList] at hs
    | cons b bs =>
      simp only [startsList, Bool.and_eq_true, decide_eq_true_eq] at hs
      simp only [List.cons_append, startsList, Bool.and_eq_true, decide_eq_true_eq]
      exact ⟨hs.1, ih bs t hs.2⟩

lemma strIn_append_left (n : Str) :
    ∀ h post : Str, strIn n h = true → strIn n (h ++ post) = true := by
  intro h
  induction h with
  | nil =>
    intro post hi
    simp only [strIn, List.isEmpty_iff] at hi
    subst hi
    exact strIn_nil_needle post
  | cons c cs ih =>
    intro post hi
    simp only [strIn, Bool.or_eq_true] at hi
    rcases hi with hi | hi
    · simp only [List.cons_append, strIn, Bool.or_eq_true]
      exact Or.inl (startsList_append n (c :: cs) post hi)
    · simp only [List.cons_append, strIn, Bool.or_eq_true]
      exact Or.inr (ih post hi)

lemma strIn_append_right (n : Str) :
    ∀ pre h : Str, strIn n h = true → strIn n (pre ++ h) = true := by
  intro pre
  induction pre with
  | nil => intro h hi; exact hi
  | cons c cs ih =>
    intro h hi
    simp only [List.cons_append, strIn, Bool.or_eq_true]
    exact Or.inr (ih h hi)

lemma strIn_append_mid (n pre h post : Str) (hi : strIn n h = true) :
    strIn n (pre ++ h ++ post) = true := by
  rw [List.append_assoc]
  exact strIn_append_right n pre (h ++ post) (strIn_append_left n h post hi)

/-! ### Filesystem lemmas -/

lemma fsGet_set_same (fs : FS) (p c : Str) : fsGet (fsSet fs p c) p = some c := by
  simp [fsGet, fsSet]

lemma fsGet_set_ne (fs : FS) (p q c : Str) (h : q ≠ p) :
    fsGet (fsSet fs p c) q = fsGet fs q := by
  simp [fsGet, fsSet, h]

/-! ### Backup-path lemmas: the backup name adds the four characters "_ori",
so the backup of a path is never the path itself. -/

lemma splitAtLastSep_append (sep : Char) :
    ∀ s : Str, (splitAtLastSep sep s).1 ++ (splitAtLastSep sep s).2 = s := by
  intro s
  induction s with
  | nil => rfl
  | cons c cs ih =>
    simp only [splitAtLastSep]
    split
    · simpa using ih
    · rfl

lemma splitAtLastSep_fst_spec (sep : Char) :
    ∀ s : Str, (splitAtLastSep sep s).1 = [] ∨
      ∃ t, (splitAtLastSep sep s).1 = t ++ [sep] := by
  intro s
  induction s with
  | nil => exact Or.inl rfl
  | cons c cs ih =>
    simp only [splitAtLastSep]
    split
    · next hcond =>
      refine Or.inr ?_
      rcases ih with h0 | ⟨t, ht⟩
      · rcases hcond with hc | hne
        · subst hc
          exact ⟨[], by simp [h0]⟩
        · exact absurd h0 hne
      · exact ⟨c :: t, by simp [ht]⟩
    · exact Or.inl rfl

lemma stemSuffix_append (nm : Str) :
    (stemSuffix nm).1 ++ (stemSuffix nm).2 = nm := by
  simp only [stemSuffix]
  split
  · simp
  · next hcond =>
    push_neg at hcond
    have hne : (splitAtLastSep '.' nm).1 ≠ [] := by
      intro h0
      have := hcond.1
      rw [h0] at this
      simp at this
    rcases splitAtLastSep_fst_spec '.' nm with h0 | ⟨t, ht⟩
    · exact absurd h0 hne
    · show (splitAtLastSep '.' nm).1.dropLast ++ '.' :: (splitAtLastSep '.' nm).2 = nm
      rw [ht, List.dropLast_concat]
      have : t ++ '.' :: (splitAtLastSep '.' nm).2
          = (t ++ [ '.' ]) ++ (splitAtLastSep '.' nm).2 := by simp
      rw [this, ← ht, splitAtLastSep_append]

lemma backupPath_length (p : Str) : (backupPath p).length = p.length + 4 := by
  have hdn := congrArg List.length (splitAtLastSep_append '/' p)
  have hss := congrArg List.length (stemSuffix_append (splitAtLastSep '/' p).2)
  rw [List.length_append] at hdn hss
  show ((splitAtLastSep '/' p).1 ++ (stemSuffix (splitAtLastSep '/' p).2).1
      ++ str "_ori" ++ (stemSuffix (splitAtLastSep '/' p).2).2).length = p.length + 4
  simp only [List.length_append]
  have h4 : (str "_ori").length = 4 := rfl
  omega

lemma backupPath_ne (p : Str) : backupPath p ≠ p := by
  intro h
  have := congrArg List.length h
  rw [backupPath_length] at this
  omega

/-! ### Every signature occurs in the inserted snippet -/

lemma sig1_in_patches (m : PatchMode) :
    strIn (str "startsWith(\"report-\")") (patches m) = true := by
  cases m <;> decide

lemma sig2_in_patches (m : PatchMode) :
    strIn (str "startsWith(\"record-\")") (patches m) = true := by
  cases m <;> decide

lemma sig3_in_randomizer :
    strIn (str "randSessionId") generate_session_randomizer = true := by decide

lemma sig4_in_randomizer :
    strIn (str "this._userAgent = \"\"") generate_session_randomizer = true := by decide

lemma sig_in_patch_code (m : PatchMode) :
    ∀ sig ∈ patch_signatures, strIn sig (patch_code m) = true := by
  intro sig hsig
  simp only [patch_signatures, List.mem_cons, List.not_mem_nil, or_false] at hsig
  show strIn sig (patches m ++ generate_session_randomizer) = true
  rcases hsig with h | h | h | h <;> subst h
  · exact strIn_append_left _ _ _ (sig1_in_patches m)
  · exact strIn_append_left _ _ _ (sig2_in_patches m)
  · exact strIn_append_right _ _ _ sig3_in_randomizer
  · exact strIn_append_right _ _ _ sig4_in_randomizer

lemma all_sigs_in_patchedContent (m : PatchMode) (c : Str) (k : Nat) :
    ∀ sig ∈ patch_signatures, strIn sig (patchedContent m c k) = true :=
  fun sig hs => strIn_append_mid _ _ _ _ (sig_in_patch_code m sig hs)

lemma is_already_patched_of_sig (c sig : Str) (hsig : sig ∈ patch_signatures)
    (h : strIn sig c = true) : is_already_patched c = true := by
  simp only [is_already_patched, List.any_eq_true]
  exact ⟨sig, hsig, h⟩

lemma patchedContent_is_patched (m : PatchMode) (c : Str) (k : Nat) :
    is_already_patched (patchedContent m c k) = true :=
  is_already_patched_of_sig _ (str "randSessionId") (by simp [patch_signatures])
    (all_sigs_in_patchedContent m c k _ (by simp [patch_signatures]))

/-! ### The search is leftmost -/

lemma searchAux_spec :
    ∀ (l : Str) (i s fin : Nat), searchAux i l = some (s, fin) →
      i ≤ s ∧
      (∃ r, anchorRest (l.drop (s - i)) = some r ∧
        fin = s + ((l.drop (s - i)).length - r.length)) ∧
      ∀ j, i ≤ j → j < s → anchorRest (l.drop (j - i)) = none := by
  intro l
  induction l with
  | nil =>
    intro i s fin h
    simp [searchAux] at h
  | cons c t ih =>
    intro i s fin h
    simp only [searchAux] at h
    split at h
    · next r ha =>
      simp only [Option.some.injEq, Prod.mk.injEq] at h
      obtain ⟨hs, hf⟩ := h
      subst hs
      refine ⟨Nat.le_refl i, ⟨r, ?_, ?_⟩, ?_⟩
      · simpa using ha
      · simpa using hf.symm
      · intro j hij hji
        omega
    · next ha =>
      obtain ⟨h1, ⟨r, hr, hf⟩, h3⟩ := ih (i + 1) s fin h
      have hsi : s - i = (s - i - 1) + 1 := by omega
      have hdrop : (c :: t).drop (s - i) = t.drop (s - (i + 1)) := by
        have h2 : s - i = (s - (i + 1)) + 1 := by omega
        rw [h2, List.drop_succ_cons]
      refine ⟨by omega, ⟨r, ?_, ?_⟩, ?_⟩
      · rw [hdrop]; exact hr
      · rw [hdrop]; exact hf
      · intro j hij hji
        rcases Nat.eq_or_lt_of_le hij with hji0 | hji1
        · subst hji0
          simpa using ha
        · have : (c :: t).drop (j - i) = t.drop (j - (i + 1)) := by
            have h2 : j - i = (j - (i + 1)) + 1 := by omega
            rw [h2, List.drop_succ_cons]
          rw [this]
          exact h3 j (by omega) hji

/-! ### Computation lemmas for `apply_patch` -/

lemma apply_patch_happy_exists
    (e : Env) (st : St) (p : Str) (m : PatchMode) (c b : Str) (s fin : Nat)
    (h1 : fsGet st.fs p = some c) (h2 : e.readErr p = none)
    (h3 : is_already_patched c = false)
    (h4 : find_callapi_function c = some (s, fin))
    (h5 : e.permOk p = true)
    (hb : fsGet st.fs (backupPath p) = some b)
    (hw : e.writeErr p = none) :
    (apply_patch e st p m).1 = ⟨true, str "补丁应用成功", p, backupPath p⟩ ∧
    (apply_patch e st p m).2.fs = fsSet st.fs p (patchedContent m c fin) := by
  simp only [apply_patch, h1, h2, h3, h4, h5, hb, applyPatchWrite, hw,
    Bool.false_eq_true, if_false, ite_false]
  exact ⟨rfl, rfl⟩

lemma apply_patch_happy_fresh
    (e : Env) (st : St) (p : Str) (m : PatchMode) (c : Str) (s fin : Nat)
    (h1 : fsGet st.fs p = some c) (h2 : e.readErr p = none)
    (h3 : is_already_patched c = false)
    (h4 : find_callapi_function c = some (s, fin))
    (h5 : e.permOk p = true)
    (hb : fsGet st.fs (backupPath p) = none)
    (hcp : e.copyErr p (backupPath p) = none)
    (hw : e.writeErr p = none) :
    (apply_patch e st p m).1 = ⟨true, str "补丁应用成功", p, backupPath p⟩ ∧
    (apply_patch e st p m).2.fs =
      fsSet (fsSet st.fs (backupPath p) c) p (patchedContent m c fin) := by
  simp only [apply_patch, h1, h2, h3, h4, h5, hb, hcp, applyPatchWrite, hw,
    Bool.false_eq_true, if_false, ite_false]
  exact ⟨rfl, rfl⟩

lemma apply_patch_write_fails
    (e : Env) (st : St) (p : Str) (m : PatchMode) (c err : Str) (s fin : Nat)
    (h1 : fsGet st.fs p = some c) (h2 : e.readErr p = none)
    (h3 : is_already_patched c = false)
    (h4 : find_callapi_function c = some (s, fin))
    (h5 : e.permOk p = true)
    (hb : fsGet st.fs (backupPath p) = none)
    (hcp : e.copyErr p (backupPath p) = none)
    (hw : e.writeErr p = some err)
    (hrb : e.copyErr (backupPath p) p = none) :
    (apply_patch e st p m).1 = fail (str "写入补丁文件失败: " ++ err) ∧
    fsGet (apply_patch e st p m).2.fs p = some c ∧
    str "已从备份恢复原始文件" ∈ (apply_patch e st p m).2.log := by
  have hget : fsGet (fsSet (fsSet st.fs (backupPath p) c) p (e.failContent p))
      (backupPath p) = some c := by
    rw [fsGet_set_ne _ _ _ _ (backupPath_ne p), fsGet_set_same]
  simp only [apply_patch, h1, h2, h3, h4, h5, hb, hcp, applyPatchWrite, hw, hget, hrb,
    Bool.false_eq_true, Bool.true_eq_false, if_false, ite_false]
  exact ⟨by trivial, by rw [fsGet_set_same], by simp⟩

/-- Inversion: a successful `apply_patch` implies every guard passed. -/
lemma apply_patch_success_conds (e : Env) (st : St) (p : Str) (m : PatchMode)
    (h : (apply_patch e st p m).1.success = true) :
    ∃ c s fin, fsGet st.fs p = some c ∧ e.readErr p = none ∧
      is_already_patched c = false ∧
      find_callapi_function c = some (s, fin) ∧
      e.permOk p = true ∧ e.writeErr p = none ∧
      (fsGet st.fs (backupPath p) = none → e.copyErr p (backupPath p) = none) := by
  unfold apply_patch at h
  split at h
  · simp [fail] at h
  · next c h1 =>
    dsimp only at h
    split at h
    · simp [fail] at h
    · next h2 =>
      split at h
      · simp [fail] at h
      · next h3 =>
        split at h
        · simp [fail] at h
        · next se h4 =>
          split at h
          · simp [fail] at h
          · next h5 =>
            have h5' : e.permOk p = true := by
              cases hp : e.permOk p
              · exact absurd hp h5
              · rfl
            have h3' : is_already_patched c = false := by
              simpa using h3
            split at h
            · next b hb =>
              unfold applyPatchWrite at h
              split at h
              · next hw =>
                exact ⟨c, se.1, se.2, h1, h2, h3', by rw [h4], h5', hw,
                  fun hnone => absurd (hb ▸ hnone) (by simp)⟩
              · dsimp only at h
                split at h <;> simp [fail] at h
            · next hb =>
              split at h
              · simp [fail] at h
              · next hcp =>
                unfold applyPatchWrite at h
                split at h
                · next hw =>
                  exact ⟨c, se.1, se.2, h1, h2, h3', by rw [h4], h5', hw, fun _ => hcp⟩
                · dsimp only at h
                  split at h <;> simp [fail] at h

/-! ### Computation lemmas for the remaining operations -/

lemma apply_patch_rejects_patched (e : Env) (st : St) (p : Str) (m : PatchMode) (c : Str)
    (h1 : fsGet st.fs p = some c) (h2 : e.readErr p = none)
    (h3 : is_already_patched c = true) :
    (apply_patch e st p m).1 = fail (str "文件已被补丁，跳过操作") ∧
    (apply_patch e st p m).2.fs = st.fs := by
  simp only [apply_patch, h1, h2, h3, if_true, ite_true]
  exact ⟨by trivial, by trivial⟩

lemma apply_patch_no_anchor (e : Env) (st : St) (p : Str) (m : PatchMode) (c : Str)
    (h1 : fsGet st.fs p = some c) (h2 : e.readErr p = none)
    (h3 : is_already_patched c = false)
    (h4 : find_callapi_function c = none) :
    (apply_patch e st p m).1 = fail (str "未找到async callApi函数") ∧
    (apply_patch e st p m).2.fs = st.fs := by
  simp only [apply_patch, h1, h2, h3, h4, Bool.false_eq_true, if_false, ite_false]
  exact ⟨by trivial, by trivial⟩

lemma restore_happy (e : Env) (st : St) (p bc : Str)
    (hb : fsGet st.fs (backupPath p) = some bc)
    (h5 : e.permOk p = true)
    (hcp : e.copyErr (backupPath p) p = none) :
    (restore_from_backup e st p).1 = ⟨true, str "恢复成功", p, backupPath p⟩ ∧
    (restore_from_backup e st p).2.fs = fsSet st.fs p bc := by
  simp only [restore_from_backup, hb, h5, hcp, Bool.true_eq_false, if_false, ite_false]
  exact ⟨by trivial, by trivial⟩

lemma restore_success_inv (e : Env) (st : St) (p : Str)
    (h : (restore_from_backup e st p).1.success = true) :
    ∃ bc, fsGet st.fs (backupPath p) = some bc ∧
      (restore_from_backup e st p).2.fs = fsSet st.fs p bc := by
  unfold restore_from_backup at h
  dsimp only at h
  split at h
  · simp [fail] at h
  · next bc hb =>
    split at h
    · simp [fail] at h
    · next h5 =>
      split at h
      · simp [fail] at h
      · next hcp =>
        have h5' : e.permOk p = true := by
          cases hp : e.permOk p
          · exact absurd hp h5
          · rfl
        refine ⟨bc, hb, ?_⟩
        simp only [restore_from_backup, hb, h5', hcp, Bool.true_eq_false, if_false,
          ite_false]

lemma apply_patch_success_fsGet (e : Env) (st : St) (p : Str) (m : PatchMode)
    (h : (apply_patch e st p m).1.success = true) :
    ∃ c s fin, fsGet st.fs p = some c ∧ find_callapi_function c = some (s, fin) ∧
      fsGet (apply_patch e st p m).2.fs p = some (patchedContent m c fin) := by
  obtain ⟨c, s, fin, h1, h2, h3, h4, h5, hw, hbc⟩ := apply_patch_success_conds e st p m h
  cases hb : fsGet st.fs (backupPath p) with
  | some b =>
    obtain ⟨_, hfs⟩ := apply_patch_happy_exists e st p m c b s fin h1 h2 h3 h4 h5 hb hw
    exact ⟨c, s, fin, h1, h4, by rw [hfs, fsGet_set_same]⟩
  | none =>
    obtain ⟨_, hfs⟩ := apply_patch_happy_fresh e st p m c s fin h1 h2 h3 h4 h5 hb (hbc hb) hw
    exact ⟨c, s, fin, h1, h4, by rw [hfs, fsGet_set_same]⟩

/-! ### Backup preservation -/

lemma apply_patch_preserves_backup (e : Env) (st : St) (p : Str) (m : PatchMode) (b : Str)
    (hb : fsGet st.fs (backupPath p) = some b) :
    fsGet (apply_patch e st p m).2.fs (backupPath p) = some b := by
  unfold apply_patch
  dsimp only
  split
  · exact hb
  · split
    · exact hb
    · split
      · exact hb
      · split
        · exact hb
        · split
          · exact hb
          · split
            · unfold applyPatchWrite
              dsimp only
              split
              · rw [fsGet_set_ne _ _ _ _ (backupPath_ne p)]
                exact hb
              · split
                · rw [fsGet_set_ne _ _ _ _ (backupPath_ne p),
                      fsGet_set_ne _ _ _ _ (backupPath_ne p)]
                  exact hb
                · rw [fsGet_set_ne _ _ _ _ (backupPath_ne p)]
                  exact hb
            · next hb' =>
              rw [hb] at hb'
              cases hb'

lemma restore_preserves_backup (e : Env) (st : St) (p b : Str)
    (hb : fsGet st.fs (backupPath p) = some b) :
    fsGet (restore_from_backup e st p).2.fs (backupPath p) = some b := by
  unfold restore_from_backup
  dsimp only
  split
  · exact hb
  · split
    · exact hb
    · split
      · exact hb
      · rw [fsGet_set_ne _ _ _ _ (backupPath_ne p)]
        exact hb

/-! ### Messages are never empty -/

lemma ne_nil_append_of_left (a t : Str) (h : a ≠ []) : a ++ t ≠ [] := by
  cases a
  · exact absurd rfl h
  · simp

lemma message_never_empty (e : Env) (st : St) (p : Str) (m : PatchMode) :
    (apply_patch e st p m).1.message ≠ [] ∧
    (restore_from_backup e st p).1.message ≠ [] ∧
    get_patch_status e st p ≠ [] := by
  refine ⟨?_, ?_, ?_⟩
  · unfold apply_patch applyPatchWrite
    dsimp only
    repeat' split
    all_goals
      simp only [fail]
      first
      | exact ne_nil_append_of_left _ _ (by decide)
      | decide
  · unfold restore_from_backup
    dsimp only
    repeat' split
    all_goals
      simp only [fail]
      first
      | exact ne_nil_append_of_left _ _ (by decide)
      | decide
  · unfold get_patch_status
    repeat' split
    all_goals decide

lemma isEmpty_false_of_ne (l : Str) (h : l ≠ []) : l.isEmpty = false := by
  cases l
  · exact absurd rfl h
  · rfl

lemma get_patch_status_cases (e : Env) (st : St) (p : Str) :
    get_patch_status e st p = str "file not found" ∨
    get_patch_status e st p = str "patched" ∨
    get_patch_status e st p = str "not patched" ∨
    get_patch_status e st p = str "status unknown" := by
  cases hf : fsGet st.fs p with
  | none => exact Or.inl (by simp [get_patch_status, hf])
  | some c =>
    cases hr : e.readErr p with
    | some err =>
      exact Or.inr (Or.inr (Or.inr (by simp [get_patch_status, hf, hr])))
    | none =>
      cases hip : is_already_patched c
      · exact Or.inr (Or.inr (Or.inl (by simp [get_patch_status, hf, hr, hip])))
      · exact Or.inr (Or.inl (by simp [get_patch_status, hf, hr, hip]))

lemma find_callapi_spec (c : Str) (s fin : Nat)
    (h : find_callapi_function c = some (s, fin)) :
    (∃ r, anchorRest (c.drop s) = some r ∧
      fin = s + ((c.drop s).length - r.length)) ∧
    ∀ j, j < s → anchorRest (c.drop j) = none := by
  obtain ⟨h1, h2, h3⟩ := searchAux_spec c 0 s fin h
  refine ⟨by simpa using h2, ?_⟩
  intro j hj
  have := h3 j (Nat.zero_le j) hj
  simpa using this

/-! ### Claim theorems -/

/-- Claim C1: for every file whose content contains none of the four fixed
signature substrings and does contain a match of the async `callApi` anchor
regex, `apply_patch` (for every `PatchMode`) returns a successful
`PatchResult` — provided the surrounding I/O calls do not fault — and the
resulting file content contains all four signature substrings. -/
theorem C1_apply_patch_succeeds_with_signatures
    (e : Env) (st : St) (p : Str) (m : PatchMode) (c : Str)
    (h1 : fsGet st.fs p = some c)
    (hsig : ∀ sig ∈ patch_signatures, strIn sig c = false)
    (hanchor : (find_callapi_function c).isSome = true)
    (h2 : e.readErr p = none) (h5 : e.permOk p = true)
    (hb : (fsGet st.fs (backupPath p)).isSome = true ∨
      e.copyErr p (backupPath p) = none)
    (hw : e.writeErr p = none) :
    (apply_patch e st p m).1.success = true ∧
    ∃ c', fsGet (apply_patch e st p m).2.fs p = some c' ∧
      ∀ sig ∈ patch_signatures, strIn sig c' = true := by
  have h3 : is_already_patched c = false := by
    cases hip : is_already_patched c
    · rfl
    · exfalso
      rw [is_already_patched, List.any_eq_true] at hip
      obtain ⟨sig, hs, hin⟩ := hip
      rw [hsig sig hs] at hin
      cases hin
  obtain ⟨sf, h4⟩ := Option.isSome_iff_exists.mp hanchor
  obtain ⟨s, fin⟩ := sf
  cases hbp : fsGet st.fs (backupPath p) with
  | some b =>
    obtain ⟨hr, hfs⟩ := apply_patch_happy_exists e st p m c b s fin h1 h2 h3 h4 h5 hbp hw
    exact ⟨by rw [hr], patchedContent m c fin, by rw [hfs, fsGet_set_same],
      all_sigs_in_patchedContent m c fin⟩
  | none =>
    have hcp : e.copyErr p (backupPath p) = none := by
      rcases hb with hbs | hcp
      · rw [hbp] at hbs
        cases hbs
      · exact hcp
    obtain ⟨hr, hfs⟩ := apply_patch_happy_fresh e st p m c s fin h1 h2 h3 h4 h5 hbp hcp hw
    exact ⟨by rw [hr], patchedContent m c fin, by rw [hfs, fsGet_set_same],
      all_sigs_in_patchedContent m c fin⟩

/-- Witness for C1 at the concrete file `a.js`. -/
theorem C1_witness :
    (apply_patch envOk stW pW PatchMode.block).1.success = true :=
  (C1_apply_patch_succeeds_with_signatures envOk stW pW PatchMode.block cW
    (by decide) (by decide) (by decide) (by decide) (by decide)
    (Or.inr (by decide)) (by decide)).1

/-- Claim C2 counterexample: with a stale backup `a_ori.js` already on disk
holding "OLD", `apply_patch` on `a.js` succeeds (backup creation skips), and
`restore_from_backup` afterwards yields "OLD" — not the pre-patch content
`cW` — so the round trip is not byte-identical for every file. -/
theorem C2_counterexample :
    (apply_patch envOk stStale pW PatchMode.block).1.success = true ∧
    fsGet stStale.fs pW = some cW ∧
    fsGet (restore_from_backup envOk
      (apply_patch envOk stStale pW PatchMode.block).2 pW).2.fs pW = some (str "OLD") ∧
    (cW == str "OLD") = false :=
  ⟨by decide, by decide, by decide, by decide⟩

/-- Claim C2 (amended): provided no backup file exists before the call,
a successful `apply_patch` followed by a successful `restore_from_backup`
leaves the file byte-identical to its pre-patch content. -/
theorem C2_amended_roundtrip
    (e e2 : Env) (st : St) (p : Str) (m : PatchMode) (c : Str)
    (h1 : fsGet st.fs p = some c)
    (hnb : fsGet st.fs (backupPath p) = none)
    (hs : (apply_patch e st p m).1.success = true)
    (hr : (restore_from_backup e2 (apply_patch e st p m).2 p).1.success = true) :
    fsGet (restore_from_backup e2 (apply_patch e st p m).2 p).2.fs p = some c := by
  obtain ⟨c', s, fin, h1', h2, h3, h4, h5, hw, hbc⟩ := apply_patch_success_conds e st p m hs
  rw [h1] at h1'
  obtain rfl : c = c' := Option.some.inj h1'
  obtain ⟨_, hfs⟩ := apply_patch_happy_fresh e st p m c s fin h1 h2 h3 h4 h5 hnb (hbc hnb) hw
  obtain ⟨bc, hbg, hrfs⟩ := restore_success_inv e2 _ p hr
  rw [hfs, fsGet_set_ne _ _ _ _ (backupPath_ne p), fsGet_set_same] at hbg
  obtain rfl : c = bc := Option.some.inj hbg
  rw [hrfs, fsGet_set_same]

/-- Witness for the amended C2 at the concrete file `a.js` (no prior backup). -/
theorem C2_amended_witness :
    fsGet (restore_from_backup envOk
      (apply_patch envOk stW pW PatchMode.block).2 pW).2.fs pW = some cW :=
  C2_amended_roundtrip envOk envOk stW pW PatchMode.block cW
    (by decide) (by decide) (by decide) (by decide)

/-- Claim C3: after a successful `apply_patch`, a second `apply_patch` on the
same file (any mode, read succeeding) returns the failed `PatchResult`
carrying the already-patched message, because the inserted snippet contains
the signature substrings. -/
theorem C3_second_apply_rejected
    (e e2 : Env) (st : St) (p : Str) (m m2 : PatchMode)
    (hs : (apply_patch e st p m).1.success = true)
    (h2 : e2.readErr p = none) :
    (apply_patch e2 (apply_patch e st p m).2 p m2).1 =
      fail (str "文件已被补丁，跳过操作") := by
  obtain ⟨c, s, fin, h1, h4, hget⟩ := apply_patch_success_fsGet e st p m hs
  exact (apply_patch_rejects_patched e2 _ p m2 _ hget h2
    (patchedContent_is_patched m c fin)).1

/-- Witness for C3 at the concrete file `a.js`. -/
theorem C3_witness :
    (apply_patch envOk (apply_patch envOk stW pW PatchMode.block).2 pW PatchMode.block).1 =
      fail (str "文件已被补丁，跳过操作") :=
  C3_second_apply_rejected envOk envOk stW pW PatchMode.block PatchMode.block
    (by decide) (by decide)

/-- Claim C4: on an existing, readable, unpatched file with no anchor match,
`apply_patch` fails with the anchor-not-found message and the filesystem —
file content and absence of a backup alike — is unchanged. -/
theorem C4_no_anchor_fails_unchanged
    (e : Env) (st : St) (p : Str) (m : PatchMode) (c : Str)
    (h1 : fsGet st.fs p = some c) (h2 : e.readErr p = none)
    (hsig : is_already_patched c = false)
    (h4 : find_callapi_function c = none) :
    (apply_patch e st p m).1 = fail (str "未找到async callApi函数") ∧
    (apply_patch e st p m).2.fs = st.fs :=
  apply_patch_no_anchor e st p m c h1 h2 hsig h4

/-- Witness for C4 at concrete anchor-free content. -/
theorem C4_witness :
    (apply_patch envOk stNoAnchor pW PatchMode.random).1 =
      fail (str "未找到async callApi函数") ∧
    (apply_patch envOk stNoAnchor pW PatchMode.random).2.fs = stNoAnchor.fs :=
  C4_no_anchor_fails_unchanged envOk stNoAnchor pW PatchMode.random cNoAnchor
    (by decide) (by decide) (by decide) (by decide)

/-- Claim C5: once the backup file `<stem>_ori<ext>` of a target exists, its
content is preserved by `apply_patch` (backup creation returns early when
the backup exists; patching and rollback write only to the target) and by
`restore_from_backup` (which copies from the backup to the target).
`get_patch_status` returns only a string and by its very type mutates no
state. -/
theorem C5_backup_never_overwritten
    (e : Env) (st : St) (p : Str) (m : PatchMode) (b : Str)
    (hb : fsGet st.fs (backupPath p) = some b) :
    fsGet (apply_patch e st p m).2.fs (backupPath p) = some b ∧
    fsGet (restore_from_backup e st p).2.fs (backupPath p) = some b :=
  ⟨apply_patch_preserves_backup e st p m b hb,
   restore_preserves_backup e st p b hb⟩

/-- Witness for C5 at the concrete state with an existing backup. -/
theorem C5_witness :
    fsGet (apply_patch envOk stStale pW PatchMode.block).2.fs (backupPath pW) =
      some (str "OLD") ∧
    fsGet (restore_from_backup envOk stStale pW).2.fs (backupPath pW) =
      some (str "OLD") :=
  C5_backup_never_overwritten envOk stStale pW PatchMode.block (str "OLD") (by decide)

/-- Claim C6: when the final write of the patched content fails, the
operation attempts to restore the original content from the backup into the
target (here: the rollback copy succeeds, so the file again holds the
original content), returns a failed `PatchResult` reporting the write
failure, and prints the attempted-recovery note. -/
theorem C6_write_failure_attempts_restore
    (e : Env) (st : St) (p : Str) (m : PatchMode) (c err : Str) (s fin : Nat)
    (h1 : fsGet st.fs p = some c) (h2 : e.readErr p = none)
    (h3 : is_already_patched c = false)
    (h4 : find_callapi_function c = some (s, fin))
    (h5 : e.permOk p = true)
    (hb : fsGet st.fs (backupPath p) = none)
    (hcp : e.copyErr p (backupPath p) = none)
    (hw : e.writeErr p = some err)
    (hrb : e.copyErr (backupPath p) p = none) :
    (apply_patch e st p m).1.success = false ∧
    (apply_patch e st p m).1.message = str "写入补丁文件失败: " ++ err ∧
    fsGet (apply_patch e st p m).2.fs p = some c ∧
    str "已从备份恢复原始文件" ∈ (apply_patch e st p m).2.log := by
  obtain ⟨hr, hfs, hlog⟩ :=
    apply_patch_write_fails e st p m c err s fin h1 h2 h3 h4 h5 hb hcp hw hrb
  exact ⟨by rw [hr]; rfl, by rw [hr]; rfl, hfs, hlog⟩

/-- Witness for C6: writing `a.js` raises "disk full". -/
theorem C6_witness :
    (apply_patch envWF stW pW PatchMode.block).1.success = false ∧
    (apply_patch envWF stW pW PatchMode.block).1.message =
      str "写入补丁文件失败: " ++ str "disk full" ∧
    fsGet (apply_patch envWF stW pW PatchMode.block).2.fs pW = some cW ∧
    str "已从备份恢复原始文件" ∈ (apply_patch envWF stW pW PatchMode.block).2.log :=
  C6_write_failure_attempts_restore envWF stW pW PatchMode.block cW (str "disk full")
    16 34 (by decide) (by decide) (by decide) (by decide) (by decide) (by decide)
    (by decide) (by decide) (by decide)

/-- Claim C7: `get_patch_status` always returns one of the four (pairwise
distinct) status strings, and it returns the file-not-found status when the
path does not exist, the status-unknown status when reading raises, the
patched status when the content holds at least one signature, and the
not-patched status when it holds none. -/
theorem C7_status_is_one_of_four (e : Env) (st : St) (p : Str) :
    (get_patch_status e st p = str "file not found" ∨
     get_patch_status e st p = str "patched" ∨
     get_patch_status e st p = str "not patched" ∨
     get_patch_status e st p = str "status unknown") ∧
    (fsGet st.fs p = none → get_patch_status e st p = str "file not found") ∧
    (∀ c, fsGet st.fs p = some c → e.readErr p ≠ none →
      get_patch_status e st p = str "status unknown") ∧
    (∀ c, fsGet st.fs p = some c → e.readErr p = none →
      is_already_patched c = true → get_patch_status e st p = str "patched") ∧
    (∀ c, fsGet st.fs p = some c → e.readErr p = none →
      is_already_patched c = false → get_patch_status e st p = str "not patched") := by
  refine ⟨get_patch_status_cases e st p, ?_, ?_, ?_, ?_⟩
  · intro hf
    simp [get_patch_status, hf]
  · intro c hc hr
    cases hrr : e.readErr p with
    | none => exact absurd hrr hr
    | some err => simp [get_patch_status, hc, hrr]
  · intro c hc hr hip
    simp [get_patch_status, hc, hr, hip]
  · intro c hc hr hip
    simp [get_patch_status, hc, hr, hip]

/-- Witness for C7 at the unpatched concrete file. -/
theorem C7_witness :
    get_patch_status envOk stW pW = str "not patched" :=
  (C7_status_is_one_of_four envOk stW pW).2.2.2.2 cW (by decide) (by decide) (by decide)

/-- Claim C8: the embedded operations are total by construction — each
returns a value for every oracle, state, path and mode, mirroring that no
exception escapes the Python methods — every returned `PatchResult` carries
a non-empty message (in particular every failure does), and
`get_patch_status` always returns one of the four status strings. -/
theorem C8_no_escape_nonempty_messages
    (e : Env) (st : St) (p : Str) (m : PatchMode) :
    ((apply_patch e st p m).1.message).isEmpty = false ∧
    ((restore_from_backup e st p).1.message).isEmpty = false ∧
    (get_patch_status e st p = str "file not found" ∨
     get_patch_status e st p = str "patched" ∨
     get_patch_status e st p = str "not patched" ∨
     get_patch_status e st p = str "status unknown") := by
  obtain ⟨ha, hr, _⟩ := message_never_empty e st p m
  exact ⟨isEmpty_false_of_ne _ ha, isEmpty_false_of_ne _ hr,
    get_patch_status_cases e st p⟩

/-- Claim C9: the file transformation of `apply_patch` is deterministic in
content and mode — the inserted snippet is a fixed literal per mode — so two
successful runs on files holding identical content, under any oracles,
states and paths, leave identical patched content. -/
theorem C9_transformation_deterministic
    (e1 : Env) (st1 : St) (p1 : Str) (e2 : Env) (st2 : St) (p2 : Str)
    (m : PatchMode) (c : Str)
    (h1 : fsGet st1.fs p1 = some c) (h2 : fsGet st2.fs p2 = some c)
    (hs1 : (apply_patch e1 st1 p1 m).1.success = true)
    (hs2 : (apply_patch e2 st2 p2 m).1.success = true) :
    fsGet (apply_patch e1 st1 p1 m).2.fs p1 =
      fsGet (apply_patch e2 st2 p2 m).2.fs p2 := by
  obtain ⟨c1, s1, f1, h1', hf1, hg1⟩ := apply_patch_success_fsGet e1 st1 p1 m hs1
  obtain ⟨c2, s2, f2, h2', hf2, hg2⟩ := apply_patch_success_fsGet e2 st2 p2 m hs2
  rw [h1] at h1'
  obtain rfl : c = c1 := Option.some.inj h1'
  rw [h2] at h2'
  obtain rfl : c = c2 := Option.some.inj h2'
  rw [hf1] at hf2
  have hsf : s1 = s2 := congrArg Prod.fst (Option.some.inj hf2)
  have hff : f1 = f2 := congrArg Prod.snd (Option.some.inj hf2)
  subst hsf
  subst hff
  rw [hg1, hg2]

/-- Witness for C9: the same content under two different paths and states. -/
theorem C9_witness :
    fsGet (apply_patch envOk stW pW PatchMode.stealth).2.fs pW =
      fsGet (apply_patch envOk stB pB PatchMode.stealth).2.fs pB :=
  C9_transformation_deterministic envOk stW pW envOk stB pB PatchMode.stealth cW
    (by decide) (by decide) (by decide) (by decide)

/-- Claim C10: the snippet is inserted only after the leftmost anchor match:
no earlier position matches the anchor, the reported end is the end of that
match, and the patched content is the original prefix up to that end,
the snippet, then the unchanged remainder — a pure insertion. -/
theorem C10_leftmost_pure_insertion
    (e : Env) (st : St) (p : Str) (m : PatchMode) (c : Str) (s fin : Nat)
    (h1 : fsGet st.fs p = some c)
    (hf : find_callapi_function c = some (s, fin))
    (hs : (apply_patch e st p m).1.success = true) :
    (∀ j, j < s → anchorRest (c.drop j) = none) ∧
    (∃ r, anchorRest (c.drop s) = some r ∧
      fin = s + ((c.drop s).length - r.length)) ∧
    fsGet (apply_patch e st p m).2.fs p =
      some (c.take fin ++ patch_code m ++ c.drop fin) := by
  obtain ⟨hend, hmin⟩ := find_callapi_spec c s fin hf
  obtain ⟨c', s', fin', h1', hf', hget⟩ := apply_patch_success_fsGet e st p m hs
  rw [h1] at h1'
  obtain rfl : c = c' := Option.some.inj h1'
  rw [hf] at hf'
  have hsf : s = s' := congrArg Prod.fst (Option.some.inj hf')
  have hff : fin = fin' := congrArg Prod.snd (Option.some.inj hf')
  subst hsf
  subst hff
  exact ⟨hmin, hend, by simpa [patchedContent] using hget⟩

/-- Witness for C10 on content with two anchor matches, the first not at
position 0: position 0 does not match, and the snippet lands after the end
of the first match only. -/
theorem C10_witness :
    anchorRest (cTwo.drop 0) = none ∧
    fsGet (apply_patch envOk stTwo pW PatchMode.debug).2.fs pW =
      some (cTwo.take 20 ++ patch_code PatchMode.debug ++ cTwo.drop 20) := by
  obtain ⟨hmin, _, hins⟩ := C10_leftmost_pure_insertion envOk stTwo pW PatchMode.debug
    cTwo 2 20 (by decide) (by decide) (by decide)
  exact ⟨hmin 0 (by decide), hins⟩

end AugmentPatch
